import Mathlib

/-!
Verification of `tools/generate_references.py` against its specification.

The script walks a list of test cases; for each it creates an 8-bit alpha
Cairo surface, optionally installs a CTM, replays the path segments against
the Cairo context (elevating quadratic Beziers to cubics), configures and
executes a fill or stroke, and writes the surface to a PNG file.

Shallow embedding conventions:
* Coordinates and other numeric parameters are modelled as `ℚ` (the script
  manipulates the numbers algebraically; rounding of IEEE doubles is out of
  scope).
* Every call the script makes to the Cairo backend is recorded as a `Call`
  in a trace, in program order.  The only backend state the script ever
  reads back is the current point (`ctx.get_current_point()`), so the
  embedding threads exactly that state (`Ctx`), following Cairo's
  documented semantics: `get_current_point` yields `(0, 0)` when no
  current point exists; `curve_to` moves the current point to the curve's
  end point (behaving as a `move_to` to the first control point when there
  is no current point); `close_path` returns the current point to the
  start of the current subpath.
* Python exceptions that this script can raise are modelled by `Err`:
  `KeyError` from a dict lookup (missing test-case field, or an enum
  string absent from one of the lookup tables `rule_map`/`cap_map`/
  `join_map`), `IndexError` from `pts[i]`, and `ValueError` from unpacking
  a `ctm` list whose length is not 6.  The script defines no exception
  classes of its own (in particular no `StateError`, `SchemaError` or
  `UnsupportedValueError`).
-/

namespace GenRefs

/-- Exceptions the script can raise, see the module docstring. -/
inductive Err where
  | keyError (key : String)
  | valueError (msg : String)
  | indexError
deriving DecidableEq

/-- Cairo surface pixel formats (the script only ever selects `FORMAT_A8`,
the 8-bit single-channel alpha/coverage format). -/
inductive CairoFormat where
  | a8
  | argb32
deriving DecidableEq

/-- `cairo.FILL_RULE_*` constants used by the script. -/
inductive FillRule where
  | winding
  | evenOdd
deriving DecidableEq

/-- `cairo.LINE_CAP_*` constants used by the script. -/
inductive LineCap where
  | buttCap
  | roundCap
  | squareCap
deriving DecidableEq

/-- `cairo.LINE_JOIN_*` constants used by the script. -/
inductive LineJoin where
  | miterJoin
  | roundJoin
  | bevelJoin
deriving DecidableEq

/-- One call from the script to the Cairo backend, in the order the script
issues them. -/
inductive Call where
  | createSurface (fmt : CairoFormat) (w h : Int)
  | setMatrix (a b c d e f : ℚ)
  | moveTo (x y : ℚ)
  | lineTo (x y : ℚ)
  | curveTo (x1 y1 x2 y2 x3 y3 : ℚ)
  | closePath
  | setFillRule (r : FillRule)
  | setSourceRGBA (r g b a : ℚ)
  | fill
  | setLineWidth (w : ℚ)
  | setLineCap (c : LineCap)
  | setLineJoin (j : LineJoin)
  | setMiterLimit (m : ℚ)
  | setDash (pattern : List ℚ) (phase : ℚ)
  | stroke
  | writeToPng (path : String)
deriving DecidableEq

/-- A path segment: `{cmd: ..., pts: [...]}`.  Both keys are read
unconditionally by the script (`cmd, pts = seg["cmd"], seg["pts"]`), so
they are plain fields here. -/
structure PathSegment where
  cmd : String
  pts : List (ℚ × ℚ)
deriving DecidableEq

/-- A test case record.  Fields the script reads with `tc[...]` on every
run (`name`, `width`, `height`, `path`, `op`) are plain fields; fields it
reads only on some control path, and which may be missing from the JSON
object, are `Option`s (a `None` models an absent key, so that the
conditional `tc[...]` lookup raises `KeyError`); `dash`/`dash_phase` are
read with `tc.get(...)` and are `Option`s as well. -/
structure TestCase where
  name : String
  width : Int
  height : Int
  ctm : Option (List ℚ)
  path : List PathSegment
  op : String
  fill_rule : Option String
  line_width : Option ℚ
  line_cap : Option String
  line_join : Option String
  miter_limit : Option ℚ
  dash : Option (List ℚ)
  dash_phase : Option ℚ
deriving DecidableEq

/-- The Cairo context state the script observes: the current point and the
start of the current subpath (the point `close_path` returns to). -/
structure Ctx where
  cp : Option (ℚ × ℚ)
  start : Option (ℚ × ℚ)
deriving DecidableEq

/-- Effect of `move_to` on the tracked context state. -/
def Ctx.doMove (_ : Ctx) (p : ℚ × ℚ) : Ctx := ⟨some p, some p⟩

/-- Effect of `line_to`: per Cairo, with no current point it behaves as
`move_to`. -/
def Ctx.doLine (c : Ctx) (p : ℚ × ℚ) : Ctx :=
  match c.cp with
  | none => ⟨some p, some p⟩
  | some _ => ⟨some p, c.start⟩

/-- Effect of `curve_to`: the current point becomes the end point; with no
current point beforehand, Cairo first behaves as `move_to` to the first
control point (which then starts the subpath). -/
def Ctx.doCurve (c : Ctx) (p1 p3 : ℚ × ℚ) : Ctx :=
  match c.cp with
  | none => ⟨some p3, some p1⟩
  | some _ => ⟨some p3, c.start⟩

/-- Effect of `close_path`: the current point returns to the subpath start;
with no subpath it has no effect. -/
def Ctx.doClose (c : Ctx) : Ctx :=
  match c.start with
  | none => c
  | some s => ⟨some s, c.start⟩

/-- Cairo's `get_current_point`: returns `(0, 0)` when there is no current
point (documented pycairo behavior; no exception is raised). -/
def Ctx.getCurrentPoint (c : Ctx) : ℚ × ℚ :=
  c.cp.getD (0, 0)

/-- Python `l[i]` on a list: `IndexError` when out of range. -/
def nth {α : Type} (l : List α) (i : Nat) : Except Err α :=
  match l.get? i with
  | some a => .ok a
  | none => .error .indexError

/-- Python `tc[key]` for a field modelled as an `Option`: `KeyError key`
when the key is absent. -/
def getKey {α : Type} (o : Option α) (key : String) : Except Err α :=
  match o with
  | some v => .ok v
  | none => .error (.keyError key)

/-- Python `m[k]` on one of the literal lookup dicts: `KeyError k` when the
string is not a key of the table. -/
def mapGet {α : Type} (m : String → Option α) (k : String) : Except Err α :=
  match m k with
  | some v => .ok v
  | none => .error (.keyError k)

/-- The body of the `for seg in tc["path"]` loop: one segment replayed
against the context.  Returns the new context state and the calls issued.
A `cmd` matching none of the five `if`/`elif` arms falls off the end of the
chain: no call, no error, no state change. -/
def applySeg (ctx : Ctx) (seg : PathSegment) : Except Err (Ctx × List Call) :=
  if seg.cmd = "M" then do
    let p ← nth seg.pts 0
    .ok (ctx.doMove p, [Call.moveTo p.1 p.2])
  else if seg.cmd = "L" then do
    let p ← nth seg.pts 0
    .ok (ctx.doLine p, [Call.lineTo p.1 p.2])
  else if seg.cmd = "Q" then do
    let p0 := ctx.getCurrentPoint
    let p1 ← nth seg.pts 0
    let p2 ← nth seg.pts 1
    .ok (ctx.doCurve (p0.1 + 2/3 * (p1.1 - p0.1), p0.2 + 2/3 * (p1.2 - p0.2)) p2,
      [Call.curveTo
        (p0.1 + 2/3 * (p1.1 - p0.1)) (p0.2 + 2/3 * (p1.2 - p0.2))
        (p2.1 + 2/3 * (p1.1 - p2.1)) (p2.2 + 2/3 * (p1.2 - p2.2))
        p2.1 p2.2])
  else if seg.cmd = "C" then do
    let q1 ← nth seg.pts 0
    let q2 ← nth seg.pts 1
    let q3 ← nth seg.pts 2
    .ok (ctx.doCurve q1 q3,
      [Call.curveTo q1.1 q1.2 q2.1 q2.2 q3.1 q3.2])
  else if seg.cmd = "Z" then
    .ok (ctx.doClose, [Call.closePath])
  else
    .ok (ctx, [])

/-- The whole path-construction loop, folding `applySeg` over the segments
in order. -/
def buildPath (ctx : Ctx) : List PathSegment → Except Err (Ctx × List Call)
  | [] => .ok (ctx, [])
  | seg :: rest => do
    let r ← applySeg ctx seg
    let r2 ← buildPath r.1 rest
    .ok (r2.1, r.2 ++ r2.2)

/-- The `rule_map` dict literal of the script. -/
def rule_map (s : String) : Option FillRule :=
  if s = "nonzero" then some .winding
  else if s = "evenodd" then some .evenOdd
  else none

/-- The `cap_map` dict literal of the script. -/
def cap_map (s : String) : Option LineCap :=
  if s = "butt" then some .buttCap
  else if s = "round" then some .roundCap
  else if s = "square" then some .squareCap
  else none

/-- The `join_map` dict literal of the script. -/
def join_map (s : String) : Option LineJoin :=
  if s = "miter" then some .miterJoin
  else if s = "round" then some .roundJoin
  else if s = "bevel" then some .bevelJoin
  else none

/-- The `if tc.get("dash"): ctx.set_dash(tc["dash"], tc.get("dash_phase", 0))`
step: a `set_dash` call exactly when the `dash` value is present and truthy
(a non-empty list), with phase defaulting to `0`. -/
def dashCallsOf (tc : TestCase) : List Call :=
  match tc.dash with
  | some pat => if pat = [] then [] else [Call.setDash pat (tc.dash_phase.getD 0)]
  | none => []

/-- The operation half of `render_testcase`: `if tc["op"] == "fill": ...
else: # stroke ...`.  Note the dispatch: every `op` value other than
`"fill"` takes the stroke branch. -/
def applyOp (tc : TestCase) : Except Err (List Call) :=
  if tc.op = "fill" then do
    let fr ← getKey tc.fill_rule "fill_rule"
    let rule ← mapGet rule_map fr
    .ok [Call.setFillRule rule, Call.setSourceRGBA 1 1 1 1, Call.fill]
  else do
    let lw ← getKey tc.line_width "line_width"
    let capS ← getKey tc.line_cap "line_cap"
    let cap ← mapGet cap_map capS
    let joinS ← getKey tc.line_join "line_join"
    let joinV ← mapGet join_map joinS
    let ml ← getKey tc.miter_limit "miter_limit"
    .ok ([Call.setLineWidth lw, Call.setLineCap cap, Call.setLineJoin joinV,
          Call.setMiterLimit ml] ++ dashCallsOf tc
         ++ [Call.setSourceRGBA 1 1 1 1, Call.stroke])

/-- The CTM step: `if "ctm" in tc and tc["ctm"]:` (an absent key or a falsy
— empty — list skips the step), then `a, b, c, d, e, f = tc["ctm"]`
(unpacking a list of another length raises `ValueError`), then
`ctx.set_matrix(cairo.Matrix(a, b, c, d, e, f))`. -/
def ctmCalls (tc : TestCase) : Except Err (List Call) :=
  match tc.ctm with
  | none => .ok []
  | some l =>
    if l = [] then .ok []
    else
      match l with
      | [a, b, c, d, e, f] => .ok [Call.setMatrix a b c d e f]
      | _ => .error (.valueError "ctm")

/-- The PNG path `str(output_dir / f"{name}.png")`. -/
def pngPath (output_dir name : String) : String :=
  output_dir ++ "/" ++ name ++ ".png"

/-- `render_testcase(tc, output_dir)` as a trace of backend calls: create
the A8 surface, install the CTM if present, build the path, apply the
operation, write the PNG. -/
def render_testcase (tc : TestCase) (output_dir : String) : Except Err (List Call) := do
  let cs ← ctmCalls tc
  let bp ← buildPath ⟨none, none⟩ tc.path
  let ops ← applyOp tc
  .ok (Call.createSurface .a8 tc.width tc.height
        :: (cs ++ bp.2 ++ ops ++ [Call.writeToPng (pngPath output_dir tc.name)]))

/-- The fixed output directory of `main`. -/
def outputDir : String := "testdata/reference"

/-- Observable effects of `main`'s loop: backend calls and progress lines. -/
inductive Event where
  | backend (c : Call)
  | progress (line : String)
deriving DecidableEq

/-- The `for tc in data["testcases"]` loop of `main`: render each test case
then print its progress line; an exception propagates and aborts the rest
of the loop, so no event is produced for any later test case. -/
def runBatch : List TestCase → List Event × Option Err
  | [] => ([], none)
  | tc :: rest =>
    match render_testcase tc outputDir with
    | .error e => ([], some e)
    | .ok calls =>
      let r := runBatch rest
      (calls.map Event.backend
        ++ [Event.progress ("  generated " ++ tc.name ++ ".png")] ++ r.1, r.2)

/-- Filesystem model for the two I/O wrappers of `main`: the set of
existing directories.  `Path.mkdir(parents=True, exist_ok=True)` creates
the directory when absent and succeeds silently when it exists. -/
def mkdirP (dirs : List String) (d : String) : List String :=
  if d ∈ dirs then dirs else d :: dirs

/-- Filesystem model: the files, a path-to-content association.
`surface.write_to_png(path)` replaces whatever was stored at `path`. -/
def writeFileFS (files : List (String × Nat)) (p : String) (content : Nat) :
    List (String × Nat) :=
  (p, content) :: files.filter (fun q => q.1 ≠ p)

/-- Path-construction calls (the four primitives the path loop can issue). -/
def isPathCall : Call → Bool
  | .moveTo _ _ => true
  | .lineTo _ _ => true
  | .curveTo _ _ _ _ _ _ => true
  | .closePath => true
  | _ => false

/-- Terminal operations. -/
def isTerminalOp : Call → Bool
  | .fill => true
  | .stroke => true
  | _ => false

/-- Decidable equality on `Except`, so that concrete runs of the embedded
script can be checked by `decide`. -/
instance instDecEqExcept {ε α : Type} [DecidableEq ε] [DecidableEq α] :
    DecidableEq (Except ε α) := fun a b =>
  match a, b with
  | .ok x, .ok y =>
    if h : x = y then .isTrue (by rw [h])
    else .isFalse (by intro he; cases he; exact h rfl)
  | .error x, .error y =>
    if h : x = y then .isTrue (by rw [h])
    else .isFalse (by intro he; cases he; exact h rfl)
  | .ok _, .error _ => .isFalse (by intro he; cases he)
  | .error _, .ok _ => .isFalse (by intro he; cases he)

/-- A concrete test case whose first path element is a `Q` segment, with no
prior `M`/`L`/`C` to establish a current point. -/
def tcQFirst : TestCase :=
  { name := "qfirst", width := 10, height := 10, ctm := none,
    path := [⟨"Q", [(1, 2), (3, 4)]⟩], op := "fill",
    fill_rule := some "nonzero", line_width := none, line_cap := none,
    line_join := none, miter_limit := none, dash := none, dash_phase := none }

/-- The cubic-curve call a `C` segment produces: its first three points,
verbatim and in order. -/
def cubicCallOf (s : PathSegment) : Call :=
  Call.curveTo (s.pts.getD 0 (0, 0)).1 (s.pts.getD 0 (0, 0)).2
    (s.pts.getD 1 (0, 0)).1 (s.pts.getD 1 (0, 0)).2
    (s.pts.getD 2 (0, 0)).1 (s.pts.getD 2 (0, 0)).2

/-- A concrete test case whose `op` is `"paint"`, outside the `{fill,
stroke}` enum, with valid stroke parameters. -/
def tcOpPaint : TestCase :=
  { name := "op-paint", width := 8, height := 8, ctm := none, path := [],
    op := "paint", fill_rule := none, line_width := some 2,
    line_cap := some "butt", line_join := some "miter",
    miter_limit := some 4, dash := none, dash_phase := none }

/-- A concrete stroke test case carrying the out-of-enum cap `"dotted"`. -/
def tcBadCap : TestCase :=
  { name := "badcap", width := 4, height := 4, ctm := none, path := [],
    op := "stroke", fill_rule := none, line_width := some 2,
    line_cap := some "dotted", line_join := some "miter",
    miter_limit := some 4, dash := none, dash_phase := none }

/-- A concrete test case whose `op` is `"erase"`, outside the enum, with
valid stroke parameters. -/
def tcOpErase : TestCase :=
  { name := "op-erase", width := 5, height := 5, ctm := none, path := [],
    op := "erase", fill_rule := none, line_width := some 1,
    line_cap := some "round", line_join := some "bevel",
    miter_limit := some 10, dash := none, dash_phase := none }

/-- A concrete fill test case with a short path. -/
def tcFillSquare : TestCase :=
  { name := "fillsq", width := 4, height := 4, ctm := none,
    path := [⟨"M", [(1, 1)]⟩, ⟨"L", [(3, 1)]⟩, ⟨"Z", []⟩], op := "fill",
    fill_rule := some "evenodd", line_width := none, line_cap := none,
    line_join := none, miter_limit := none, dash := none, dash_phase := none }

/-- A concrete stroke test case with `dash = [4, 2]` and no `dash_phase`. -/
def tcDash : TestCase :=
  { name := "dash", width := 6, height := 6, ctm := none, path := [],
    op := "stroke", fill_rule := none, line_width := some 2,
    line_cap := some "butt", line_join := some "miter",
    miter_limit := some 4, dash := some [4, 2], dash_phase := none }

/-- A concrete test case with a uniform-scale CTM and a one-segment path. -/
def tcCtm : TestCase :=
  { name := "ctm", width := 6, height := 6, ctm := some [2, 0, 0, 2, 0, 0],
    path := [⟨"M", [(1, 1)]⟩], op := "fill", fill_rule := some "nonzero",
    line_width := none, line_cap := none, line_join := none,
    miter_limit := none, dash := none, dash_phase := none }

/-- A test case that raises: `op` is `"stroke"` but `line_width` is
missing, so `tc["line_width"]` raises `KeyError`. -/
def tcNoWidth : TestCase :=
  { name := "nowidth", width := 4, height := 4, ctm := none, path := [],
    op := "stroke", fill_rule := none, line_width := none, line_cap := none,
    line_join := none, miter_limit := none, dash := none, dash_phase := none }

/-- A minimal fill test case with an empty path. -/
def tcMini : TestCase :=
  { name := "mini", width := 3, height := 3, ctm := none, path := [],
    op := "fill", fill_rule := some "nonzero", line_width := none,
    line_cap := none, line_join := none, miter_limit := none, dash := none,
    dash_phase := none }

/-- C1: with an established current point `p0 = (x0, y0)`, a `Q` segment
with control point `p1 = (x1, y1)` and end point `p2 = (x2, y2)` emits
exactly one backend call, a cubic curve whose control points are
`p0 + 2/3*(p1 - p0)` and `p2 + 2/3*(p1 - p2)` and whose end point is `p2`,
and the current point afterwards is `p2`. -/
theorem c1_quadratic_elevation (ctx : Ctx) (seg : PathSegment)
    (x0 y0 x1 y1 x2 y2 : ℚ)
    (hcp : ctx.cp = some (x0, y0))
    (hcmd : seg.cmd = "Q")
    (hp1 : seg.pts.get? 0 = some (x1, y1))
    (hp2 : seg.pts.get? 1 = some (x2, y2)) :
    applySeg ctx seg =
      .ok (⟨some (x2, y2), ctx.start⟩,
        [Call.curveTo
          (x0 + 2/3 * (x1 - x0)) (y0 + 2/3 * (y1 - y0))
          (x2 + 2/3 * (x1 - x2)) (y2 + 2/3 * (y1 - y2))
          x2 y2]) := by
  rw [List.get?_eq_getElem?] at hp1 hp2
  simp [applySeg, hcmd, nth, hp1, hp2, Ctx.getCurrentPoint, hcp, Ctx.doCurve,
    Except.bind]
  rfl

/-- Witness for `c1_quadratic_elevation` at a concrete segment. -/
theorem c1_quadratic_elevation_witness :
    applySeg ⟨some (1, 1), some (1, 1)⟩ ⟨"Q", [(4, 7), (10, 1)]⟩ =
      .ok (⟨some (10, 1), some (1, 1)⟩,
        [Call.curveTo
          (1 + 2/3 * (4 - 1)) (1 + 2/3 * (7 - 1))
          (10 + 2/3 * (4 - 10)) (1 + 2/3 * (7 - 1))
          10 1]) :=
  c1_quadratic_elevation ⟨some (1, 1), some (1, 1)⟩ ⟨"Q", [(4, 7), (10, 1)]⟩
    1 1 4 7 10 1 rfl rfl rfl rfl

/-- Helper: `Except.ok a >>= f` reduces to `f a`. -/
theorem ok_bind {α β : Type} (a : α) (f : α → Except Err β) :
    (Except.ok a >>= f : Except Err β) = f a := rfl

/-- Helper: `pts[i]` succeeds and yields `pts.getD i d` whenever `i` is in
range. -/
theorem nth_ok {α : Type} (l : List α) (i : Nat) (d : α) (h : i < l.length) :
    nth l i = .ok (l.getD i d) := by
  unfold nth
  rw [List.get?_eq_getElem?, List.getElem?_eq_getElem h]
  simp [List.getD, List.getElem?_eq_getElem h]

/-- C2 counterexample: processing `tcQFirst` does not fail at all (with a
`StateError` or anything else).  Cairo's `get_current_point` returns
`(0, 0)` when no current point exists, so the script silently elevates the
quadratic as if the current point were the origin and renders the test
case to completion. -/
theorem c2_counterexample :
    render_testcase tcQFirst outputDir =
      .ok [Call.createSurface .a8 10 10,
        Call.curveTo (2/3) (4/3) (5/3) (8/3) 3 4,
        Call.setFillRule .winding, Call.setSourceRGBA 1 1 1 1, Call.fill,
        Call.writeToPng "testdata/reference/qfirst.png"] := by
  have hs : pngPath outputDir "qfirst" = "testdata/reference/qfirst.png" := rfl
  have hm : ("Q" : String) ≠ "M" := by decide
  have hl : ("Q" : String) ≠ "L" := by decide
  norm_num [render_testcase, tcQFirst, ctmCalls, buildPath, applySeg, applyOp,
    nth, getKey, mapGet, rule_map, Ctx.getCurrentPoint, Ctx.doCurve,
    dashCallsOf, hs, hm, hl, Except.bind, ok_bind]

/-- C2 amended: a `Q` or `C` segment processed with no established current
point raises no error (the script defines no `StateError`).  For `Q`, the
backend's `get_current_point` silently yields the origin `(0, 0)` and the
elevation formula is applied with `p0 = (0, 0)`; for `C`, the three points
are passed through verbatim.  Processing then continues normally. -/
theorem c2_amended_origin_default (segQ segC : PathSegment)
    (x1 y1 x2 y2 : ℚ) (a1 a2 a3 : ℚ × ℚ)
    (hq : segQ.cmd = "Q") (hqp : segQ.pts = [(x1, y1), (x2, y2)])
    (hc : segC.cmd = "C") (hcp : segC.pts = [a1, a2, a3]) :
    applySeg ⟨none, none⟩ segQ =
      .ok (⟨some (x2, y2), some (0 + 2/3 * (x1 - 0), 0 + 2/3 * (y1 - 0))⟩,
        [Call.curveTo
          (0 + 2/3 * (x1 - 0)) (0 + 2/3 * (y1 - 0))
          (x2 + 2/3 * (x1 - x2)) (y2 + 2/3 * (y1 - y2))
          x2 y2]) ∧
    applySeg ⟨none, none⟩ segC =
      .ok (⟨some a3, some a1⟩,
        [Call.curveTo a1.1 a1.2 a2.1 a2.2 a3.1 a3.2]) := by
  constructor
  · simp [applySeg, hq, hqp, nth, Ctx.getCurrentPoint, Ctx.doCurve, Except.bind]
    rfl
  · simp [applySeg, hc, hcp, nth, Ctx.doCurve, Except.bind]
    rfl

/-- Witness for `c2_amended_origin_default` at concrete segments. -/
theorem c2_amended_origin_default_witness :
    applySeg ⟨none, none⟩ (⟨"Q", [(1, 2), (3, 4)]⟩ : PathSegment) =
      .ok (⟨some (3, 4), some (0 + 2/3 * (1 - 0), 0 + 2/3 * (2 - 0))⟩,
        [Call.curveTo
          (0 + 2/3 * (1 - 0)) (0 + 2/3 * (2 - 0))
          (3 + 2/3 * (1 - 3)) (4 + 2/3 * (2 - 4))
          3 4]) ∧
    applySeg ⟨none, none⟩ (⟨"C", [(5, 6), (7, 8), (9, 10)]⟩ : PathSegment) =
      .ok (⟨some (9, 10), some (5, 6)⟩,
        [Call.curveTo 5 6 7 8 9 10]) :=
  c2_amended_origin_default ⟨"Q", [(1, 2), (3, 4)]⟩ ⟨"C", [(5, 6), (7, 8), (9, 10)]⟩
    1 2 3 4 (5, 6) (7, 8) (9, 10) rfl rfl rfl rfl

/-- C7: a path consisting solely of `C` segments (each carrying its three
points) is replayed as exactly one cubic-curve call per segment, with the
segment's three points passed verbatim and in order — no elevation or
alteration. -/
theorem c7_cubic_identity (ctx : Ctx) (segs : List PathSegment)
    (h : ∀ s ∈ segs, s.cmd = "C" ∧ 3 ≤ s.pts.length) :
    ∃ ctx2, buildPath ctx segs = .ok (ctx2, segs.map cubicCallOf) := by
  induction segs generalizing ctx with
  | nil => exact ⟨ctx, rfl⟩
  | cons seg rest ih =>
    obtain ⟨hcmd, hlen⟩ := h seg (List.mem_cons_self seg rest)
    obtain ⟨ctx2, hrest⟩ :=
      ih (ctx.doCurve (seg.pts.getD 0 (0, 0)) (seg.pts.getD 2 (0, 0)))
        (fun s hs => h s (List.mem_cons_of_mem seg hs))
    refine ⟨ctx2, ?_⟩
    have happ : applySeg ctx seg =
        .ok (ctx.doCurve (seg.pts.getD 0 (0, 0)) (seg.pts.getD 2 (0, 0)),
          [cubicCallOf seg]) := by
      simp [applySeg, hcmd, nth_ok seg.pts 0 (0, 0) (by omega),
        nth_ok seg.pts 1 (0, 0) (by omega), nth_ok seg.pts 2 (0, 0) (by omega),
        Except.bind, cubicCallOf]
      rfl
    simp only [buildPath]
    rw [happ]
    simp only [ok_bind]
    rw [hrest]
    simp only [ok_bind]
    simp

/-- Witness for `c7_cubic_identity` at a concrete two-segment path. -/
theorem c7_cubic_identity_witness :
    ∃ ctx2, buildPath ⟨none, none⟩
        ([⟨"C", [(1, 1), (2, 2), (3, 3)]⟩, ⟨"C", [(4, 4), (5, 5), (6, 6)]⟩] :
          List PathSegment) =
      .ok (ctx2, [Call.curveTo 1 1 2 2 3 3, Call.curveTo 4 4 5 5 6 6]) :=
  c7_cubic_identity ⟨none, none⟩
    [⟨"C", [(1, 1), (2, 2), (3, 3)]⟩, ⟨"C", [(4, 4), (5, 5), (6, 6)]⟩]
    (by decide)

/-- C10: a segment whose `cmd` is outside `{M, L, Q, C, Z}` (but which
still carries its `cmd` and `pts` keys) falls through the `if`/`elif`
chain: no backend call, no error, context state unchanged. -/
theorem c10_unknown_cmd_skipped (ctx : Ctx) (seg : PathSegment)
    (h : seg.cmd ∉ (["M", "L", "Q", "C", "Z"] : List String)) :
    applySeg ctx seg = .ok (ctx, []) := by
  have hM : seg.cmd ≠ "M" := fun e => h (by simp [e])
  have hL : seg.cmd ≠ "L" := fun e => h (by simp [e])
  have hQ : seg.cmd ≠ "Q" := fun e => h (by simp [e])
  have hC : seg.cmd ≠ "C" := fun e => h (by simp [e])
  have hZ : seg.cmd ≠ "Z" := fun e => h (by simp [e])
  simp [applySeg, hM, hL, hQ, hC, hZ]

/-- Witness for `c10_unknown_cmd_skipped` at a concrete segment. -/
theorem c10_unknown_cmd_skipped_witness :
    applySeg ⟨some (1, 1), some (0, 0)⟩ (⟨"A", [(2, 2)]⟩ : PathSegment) =
      .ok (⟨some (1, 1), some (0, 0)⟩, []) :=
  c10_unknown_cmd_skipped ⟨some (1, 1), some (0, 0)⟩ ⟨"A", [(2, 2)]⟩ (by decide)

/-- Helper: `Except.error e >>= f` reduces to `Except.error e`. -/
theorem error_bind {α β : Type} (e : Err) (f : α → Except Err β) :
    (Except.error e >>= f : Except Err β) = .error e := rfl

/-- Helper: a successful `getKey` on a present field. -/
theorem getKey_some {α : Type} {o : Option α} {v : α} (h : o = some v) (key : String) :
    getKey o key = .ok v := by simp [getKey, h]

/-- Helper: every call emitted by one segment is a path-construction call;
in particular it is never `fill` or `stroke`. -/
theorem applySeg_calls {ctx : Ctx} {seg : PathSegment} {r : Ctx × List Call}
    (h : applySeg ctx seg = .ok r) :
    ∀ c ∈ r.2, isPathCall c = true ∧ isTerminalOp c = false := by
  unfold applySeg at h
  split_ifs at h
  · cases hn : nth seg.pts 0 with
    | error e => rw [hn, error_bind] at h; exact Except.noConfusion h
    | ok p =>
      rw [hn, ok_bind] at h
      injection h with h2
      subst h2
      intro c hc
      simp only [List.mem_singleton] at hc
      subst hc
      exact ⟨rfl, rfl⟩
  · cases hn : nth seg.pts 0 with
    | error e => rw [hn, error_bind] at h; exact Except.noConfusion h
    | ok p =>
      rw [hn, ok_bind] at h
      injection h with h2
      subst h2
      intro c hc
      simp only [List.mem_singleton] at hc
      subst hc
      exact ⟨rfl, rfl⟩
  · cases hn : nth seg.pts 0 with
    | error e => rw [hn, error_bind] at h; exact Except.noConfusion h
    | ok p =>
      rw [hn, ok_bind] at h
      cases hn2 : nth seg.pts 1 with
      | error e => rw [hn2, error_bind] at h; exact Except.noConfusion h
      | ok q =>
        rw [hn2, ok_bind] at h
        injection h with h2
        subst h2
        intro c hc
        simp only [List.mem_singleton] at hc
        subst hc
        exact ⟨rfl, rfl⟩
  · cases hn : nth seg.pts 0 with
    | error e => rw [hn, error_bind] at h; exact Except.noConfusion h
    | ok p =>
      rw [hn, ok_bind] at h
      cases hn2 : nth seg.pts 1 with
      | error e => rw [hn2, error_bind] at h; exact Except.noConfusion h
      | ok q =>
        rw [hn2, ok_bind] at h
        cases hn3 : nth seg.pts 2 with
        | error e => rw [hn3, error_bind] at h; exact Except.noConfusion h
        | ok q3 =>
          rw [hn3, ok_bind] at h
          injection h with h2
          subst h2
          intro c hc
          simp only [List.mem_singleton] at hc
          subst hc
          exact ⟨rfl, rfl⟩
  · injection h with h2
    subst h2
    intro c hc
    simp only [List.mem_singleton] at hc
    subst hc
    exact ⟨rfl, rfl⟩
  · injection h with h2
    subst h2
    intro c hc
    simp at hc

/-- Helper: every call emitted by the path loop is a path-construction
call. -/
theorem buildPath_calls {segs : List PathSegment} :
    ∀ {ctx : Ctx} {r : Ctx × List Call}, buildPath ctx segs = .ok r →
      ∀ c ∈ r.2, isPathCall c = true ∧ isTerminalOp c = false := by
  induction segs with
  | nil =>
    intro ctx r h
    injection h with h2
    subst h2
    intro c hc
    simp at hc
  | cons seg rest ih =>
    intro ctx r h
    unfold buildPath at h
    cases ha : applySeg ctx seg with
    | error e => rw [ha, error_bind] at h; exact Except.noConfusion h
    | ok r1 =>
      rw [ha, ok_bind] at h
      cases hb : buildPath r1.1 rest with
      | error e => rw [hb, error_bind] at h; exact Except.noConfusion h
      | ok r2 =>
        rw [hb, ok_bind] at h
        injection h with h2
        subst h2
        intro c hc
        simp only [List.mem_append] at hc
        rcases hc with hc | hc
        · exact applySeg_calls ha c hc
        · exact ih hb c hc

/-- Helper: a successful CTM step emits either nothing or a single
`set_matrix` call (for a present six-element `ctm`). -/
theorem ctmCalls_shape {tc : TestCase} {cs : List Call}
    (h : ctmCalls tc = .ok cs) :
    cs = [] ∨ ∃ a b c d e f, tc.ctm = some [a, b, c, d, e, f] ∧
      cs = [Call.setMatrix a b c d e f] := by
  unfold ctmCalls at h
  cases hctm : tc.ctm with
  | none =>
    rw [hctm] at h
    injection h with h2
    exact Or.inl h2.symm
  | some l =>
    simp only [hctm] at h
    by_cases hl : l = []
    · rw [if_pos hl] at h
      injection h with h2
      exact Or.inl h2.symm
    · rw [if_neg hl] at h
      rcases l with _ | ⟨a, _ | ⟨b, _ | ⟨c, _ | ⟨d, _ | ⟨e, _ | ⟨f, _ | ⟨g, l⟩⟩⟩⟩⟩⟩⟩
      · exact absurd rfl hl
      · exact Except.noConfusion h
      · exact Except.noConfusion h
      · exact Except.noConfusion h
      · exact Except.noConfusion h
      · exact Except.noConfusion h
      · injection h with h2
        exact Or.inr ⟨a, b, c, d, e, f, rfl, h2.symm⟩
      · exact Except.noConfusion h

/-- Helper: inversion of `applyOp` in the fill branch. -/
theorem applyOp_fill_elim {tc : TestCase} {ops : List Call}
    (h : applyOp tc = .ok ops) (hop : tc.op = "fill") :
    ∃ s rule, tc.fill_rule = some s ∧ rule_map s = some rule ∧
      ops = [Call.setFillRule rule, Call.setSourceRGBA 1 1 1 1, Call.fill] := by
  unfold applyOp at h
  rw [if_pos hop] at h
  cases hfr : tc.fill_rule with
  | none => rw [show getKey tc.fill_rule "fill_rule" = .error (.keyError "fill_rule") by simp [getKey, hfr], error_bind] at h; exact Except.noConfusion h
  | some s =>
    rw [getKey_some hfr "fill_rule", ok_bind] at h
    cases hr : rule_map s with
    | none => rw [show mapGet rule_map s = .error (.keyError s) by simp [mapGet, hr], error_bind] at h; exact Except.noConfusion h
    | some rule =>
      rw [show mapGet rule_map s = .ok rule by simp [mapGet, hr], ok_bind] at h
      injection h with h2
      exact ⟨s, rule, rfl, hr, h2.symm⟩

/-- Helper: inversion of `applyOp` in the stroke branch (taken for every
`op` other than `"fill"`). -/
theorem applyOp_stroke_elim {tc : TestCase} {ops : List Call}
    (h : applyOp tc = .ok ops) (hop : ¬ tc.op = "fill") :
    ∃ lw cap joinV ml,
      ops = [Call.setLineWidth lw, Call.setLineCap cap, Call.setLineJoin joinV,
        Call.setMiterLimit ml] ++ dashCallsOf tc
        ++ [Call.setSourceRGBA 1 1 1 1, Call.stroke] := by
  unfold applyOp at h
  rw [if_neg hop] at h
  cases hlw : tc.line_width with
  | none => rw [show getKey tc.line_width "line_width" = .error (.keyError "line_width") by simp [getKey, hlw], error_bind] at h; exact Except.noConfusion h
  | some lw =>
    rw [getKey_some hlw "line_width", ok_bind] at h
    cases hcs : tc.line_cap with
    | none => rw [show getKey tc.line_cap "line_cap" = .error (.keyError "line_cap") by simp [getKey, hcs], error_bind] at h; exact Except.noConfusion h
    | some capS =>
      rw [getKey_some hcs "line_cap", ok_bind] at h
      cases hcm : cap_map capS with
      | none => rw [show mapGet cap_map capS = .error (.keyError capS) by simp [mapGet, hcm], error_bind] at h; exact Except.noConfusion h
      | some cap =>
        rw [show mapGet cap_map capS = .ok cap by simp [mapGet, hcm], ok_bind] at h
        cases hjs : tc.line_join with
        | none => rw [show getKey tc.line_join "line_join" = .error (.keyError "line_join") by simp [getKey, hjs], error_bind] at h; exact Except.noConfusion h
        | some joinS =>
          rw [getKey_some hjs "line_join", ok_bind] at h
          cases hjm : join_map joinS with
          | none => rw [show mapGet join_map joinS = .error (.keyError joinS) by simp [mapGet, hjm], error_bind] at h; exact Except.noConfusion h
          | some joinV =>
            rw [show mapGet join_map joinS = .ok joinV by simp [mapGet, hjm], ok_bind] at h
            cases hml : tc.miter_limit with
            | none => rw [show getKey tc.miter_limit "miter_limit" = .error (.keyError "miter_limit") by simp [getKey, hml], error_bind] at h; exact Except.noConfusion h
            | some ml =>
              rw [getKey_some hml "miter_limit", ok_bind] at h
              injection h with h2
              exact ⟨lw, cap, joinV, ml, h2.symm⟩

/-- Helper: inversion of one successful `render_testcase` run into its four
stages and the shape of the full trace. -/
theorem render_ok_elim {tc : TestCase} {od : String} {calls : List Call}
    (h : render_testcase tc od = .ok calls) :
    ∃ cs bp ops,
      ctmCalls tc = .ok cs ∧
      buildPath ⟨none, none⟩ tc.path = .ok bp ∧
      applyOp tc = .ok ops ∧
      calls = Call.createSurface .a8 tc.width tc.height
        :: (cs ++ bp.2 ++ ops ++ [Call.writeToPng (pngPath od tc.name)]) := by
  unfold render_testcase at h
  cases hc : ctmCalls tc with
  | error e => rw [hc, error_bind] at h; exact Except.noConfusion h
  | ok cs =>
    rw [hc, ok_bind] at h
    cases hb : buildPath ⟨none, none⟩ tc.path with
    | error e => rw [hb, error_bind] at h; exact Except.noConfusion h
    | ok bp =>
      rw [hb, ok_bind] at h
      cases ho : applyOp tc with
      | error e => rw [ho, error_bind] at h; exact Except.noConfusion h
      | ok ops =>
        rw [ho, ok_bind] at h
        injection h with h2
        exact ⟨cs, bp, ops, rfl, rfl, rfl, h2.symm⟩

/-- Helper: the dash step never emits a terminal operation. -/
theorem dashCallsOf_no_terminal (tc : TestCase) :
    ∀ c ∈ dashCallsOf tc, isTerminalOp c = false := by
  intro c hc
  unfold dashCallsOf at hc
  cases hd : tc.dash with
  | none => simp only [hd] at hc; simp at hc
  | some pat =>
    simp only [hd] at hc
    by_cases hp : pat = []
    · rw [if_pos hp] at hc; simp at hc
    · rw [if_neg hp] at hc
      simp only [List.mem_singleton] at hc
      subst hc
      rfl

/-- C3 counterexample: a test case whose `op` holds the out-of-enum value
`"paint"` does not fail at all (with an `UnsupportedValueError` or
anything else): the `if tc["op"] == "fill": ... else: # stroke` dispatch
sends every non-`"fill"` value down the stroke branch, which completes
normally. -/
theorem c3_counterexample :
    render_testcase tcOpPaint outputDir =
      .ok [Call.createSurface .a8 8 8, Call.setLineWidth 2,
        Call.setLineCap .buttCap, Call.setLineJoin .miterJoin,
        Call.setMiterLimit 4, Call.setSourceRGBA 1 1 1 1, Call.stroke,
        Call.writeToPng "testdata/reference/op-paint.png"] := by
  have hs : pngPath outputDir "op-paint" = "testdata/reference/op-paint.png" := rfl
  have h1 : ("paint" : String) ≠ "fill" := by decide
  simp [render_testcase, tcOpPaint, ctmCalls, buildPath, applyOp, getKey,
    mapGet, cap_map, join_map, dashCallsOf, hs, h1, Except.bind, ok_bind]

/-- C3 amended: an out-of-enum `op` does not fail (it is treated as
stroke, see C4); an out-of-enum `fill_rule`, `line_cap` or `line_join`
makes processing fail with a `KeyError` carrying the offending value (the
Python dict-lookup error — the script defines no `UnsupportedValueError`,
and the error does not name the field). -/
theorem c3_amended_lookup_errors (tc : TestCase) (s : String) :
    (tc.op = "fill" → tc.fill_rule = some s → rule_map s = none →
      applyOp tc = .error (.keyError s)) ∧
    (tc.op ≠ "fill" → tc.line_width.isSome = true → tc.line_cap = some s →
      cap_map s = none → applyOp tc = .error (.keyError s)) ∧
    (tc.op ≠ "fill" → tc.line_width.isSome = true →
      (∃ c v, tc.line_cap = some c ∧ cap_map c = some v) →
      tc.line_join = some s → join_map s = none →
      applyOp tc = .error (.keyError s)) := by
  refine ⟨?_, ?_, ?_⟩
  · intro hop hfr hr
    unfold applyOp
    rw [if_pos hop, getKey_some hfr "fill_rule", ok_bind,
      show mapGet rule_map s = .error (.keyError s) by simp [mapGet, hr],
      error_bind]
  · intro hop hlw hcs hcm
    obtain ⟨lw, hlw'⟩ := Option.isSome_iff_exists.mp hlw
    unfold applyOp
    rw [if_neg hop, getKey_some hlw' "line_width", ok_bind,
      getKey_some hcs "line_cap", ok_bind,
      show mapGet cap_map s = .error (.keyError s) by simp [mapGet, hcm],
      error_bind]
  · rintro hop hlw ⟨c, v, hc, hv⟩ hjs hjm
    obtain ⟨lw, hlw'⟩ := Option.isSome_iff_exists.mp hlw
    unfold applyOp
    rw [if_neg hop, getKey_some hlw' "line_width", ok_bind,
      getKey_some hc "line_cap", ok_bind,
      show mapGet cap_map c = .ok v by simp [mapGet, hv], ok_bind,
      getKey_some hjs "line_join", ok_bind,
      show mapGet join_map s = .error (.keyError s) by simp [mapGet, hjm],
      error_bind]

/-- Witness for `c3_amended_lookup_errors` at a concrete test case. -/
theorem c3_amended_lookup_errors_witness :
    applyOp tcBadCap = .error (.keyError "dotted") :=
  (c3_amended_lookup_errors tcBadCap "dotted").2.1 (by decide) rfl rfl rfl

/-- C4 counterexample: an `op` value outside `{fill, stroke}` does not
fail with a `SchemaError` (the script defines none); instead the stroke
operation executes. -/
theorem c4_counterexample :
    render_testcase tcOpErase outputDir =
      .ok [Call.createSurface .a8 5 5, Call.setLineWidth 1,
        Call.setLineCap .roundCap, Call.setLineJoin .bevelJoin,
        Call.setMiterLimit 10, Call.setSourceRGBA 1 1 1 1, Call.stroke,
        Call.writeToPng "testdata/reference/op-erase.png"] := by
  have hs : pngPath outputDir "op-erase" = "testdata/reference/op-erase.png" := rfl
  have h1 : ("erase" : String) ≠ "fill" := by decide
  have h2 : ("round" : String) ≠ "butt" := by decide
  have h3 : ("bevel" : String) ≠ "miter" := by decide
  have h4 : ("bevel" : String) ≠ "round" := by decide
  simp [render_testcase, tcOpErase, ctmCalls, buildPath, applyOp, getKey,
    mapGet, cap_map, join_map, dashCallsOf, hs, h1, h2, h3, h4,
    Except.bind, ok_bind]

/-- C4 amended: for every successfully processed test case exactly one
terminal operation executes — never both, never neither.  The `op` field
is the sole selector, but the dispatch is `fill` when `op = "fill"` and
stroke for every other value: an out-of-enum `op` is not rejected (no
`SchemaError` exists in the script). -/
theorem c4_amended_one_terminal (tc : TestCase) (od : String) (calls : List Call)
    (h : render_testcase tc od = .ok calls) :
    calls.countP isTerminalOp = 1 ∧
    (Call.fill ∈ calls ↔ tc.op = "fill") ∧
    (Call.stroke ∈ calls ↔ tc.op ≠ "fill") := by
  obtain ⟨cs, bp, ops, hc, hb, ho, hcalls⟩ := render_ok_elim h
  have hcs0 : ∀ c ∈ cs, isTerminalOp c = false := by
    rcases ctmCalls_shape hc with h1 | ⟨a, b, c', d, e, f, _, h2⟩
    · subst h1; intro c hc'; simp at hc'
    · subst h2; intro c hc'; simp only [List.mem_singleton] at hc'; subst hc'; rfl
  have hbp0 : ∀ c ∈ bp.2, isTerminalOp c = false :=
    fun c hc' => (buildPath_calls hb c hc').2
  have hcsz : cs.countP isTerminalOp = 0 :=
    List.countP_eq_zero.mpr (fun a ha => by simp [hcs0 a ha])
  have hbpz : bp.2.countP isTerminalOp = 0 :=
    List.countP_eq_zero.mpr (fun a ha => by simp [hbp0 a ha])
  by_cases hop : tc.op = "fill"
  · obtain ⟨s, rule, _, _, hops⟩ := applyOp_fill_elim ho hop
    subst hops
    subst hcalls
    refine ⟨?_, ?_, ?_⟩
    · simp [List.countP_cons, List.countP_append, hcsz, hbpz, isTerminalOp]
    · refine iff_of_true ?_ hop
      simp [List.mem_append]
    · refine iff_of_false ?_ (not_not_intro hop)
      have hnc : Call.stroke ∉ cs := fun h1 => by simpa [isTerminalOp] using hcs0 _ h1
      have hnb : Call.stroke ∉ bp.2 := fun h1 => by simpa [isTerminalOp] using hbp0 _ h1
      simp [List.mem_cons, List.mem_append, hnc, hnb]
  · obtain ⟨lw, cap, joinV, ml, hops⟩ := applyOp_stroke_elim ho hop
    subst hops
    subst hcalls
    have hdash := dashCallsOf_no_terminal tc
    have hdz : (dashCallsOf tc).countP isTerminalOp = 0 :=
      List.countP_eq_zero.mpr (fun a ha => by simp [hdash a ha])
    refine ⟨?_, ?_, ?_⟩
    · simp [List.countP_cons, List.countP_append, hcsz, hbpz, hdz, isTerminalOp]
    · refine iff_of_false ?_ hop
      have hnc : Call.fill ∉ cs := fun h1 => by simpa [isTerminalOp] using hcs0 _ h1
      have hnb : Call.fill ∉ bp.2 := fun h1 => by simpa [isTerminalOp] using hbp0 _ h1
      have hnd : Call.fill ∉ dashCallsOf tc := fun h1 => by simpa [isTerminalOp] using hdash _ h1
      simp [List.mem_cons, List.mem_append, hnc, hnb, hnd]
    · refine iff_of_true ?_ hop
      simp [List.mem_append]

/-- Witness for `c4_amended_one_terminal` at a concrete test case. -/
theorem c4_amended_one_terminal_witness :
    List.countP isTerminalOp
        [Call.createSurface .a8 4 4, Call.moveTo 1 1, Call.lineTo 3 1,
          Call.closePath, Call.setFillRule .evenOdd,
          Call.setSourceRGBA 1 1 1 1, Call.fill,
          Call.writeToPng "testdata/reference/fillsq.png"] = 1 ∧
    (Call.fill ∈
        [Call.createSurface .a8 4 4, Call.moveTo 1 1, Call.lineTo 3 1,
          Call.closePath, Call.setFillRule .evenOdd,
          Call.setSourceRGBA 1 1 1 1, Call.fill,
          Call.writeToPng "testdata/reference/fillsq.png"] ↔
      tcFillSquare.op = "fill") ∧
    (Call.stroke ∈
        [Call.createSurface .a8 4 4, Call.moveTo 1 1, Call.lineTo 3 1,
          Call.closePath, Call.setFillRule .evenOdd,
          Call.setSourceRGBA 1 1 1 1, Call.fill,
          Call.writeToPng "testdata/reference/fillsq.png"] ↔
      tcFillSquare.op ≠ "fill") :=
  c4_amended_one_terminal tcFillSquare outputDir
    [Call.createSurface .a8 4 4, Call.moveTo 1 1, Call.lineTo 3 1,
      Call.closePath, Call.setFillRule .evenOdd,
      Call.setSourceRGBA 1 1 1 1, Call.fill,
      Call.writeToPng "testdata/reference/fillsq.png"]
    (by
      have hs : pngPath outputDir "fillsq" = "testdata/reference/fillsq.png" := rfl
      have h1 : ("L" : String) ≠ "M" := by decide
      have h2 : ("Z" : String) ≠ "M" := by decide
      have h3 : ("Z" : String) ≠ "L" := by decide
      have h4 : ("Z" : String) ≠ "Q" := by decide
      have h5 : ("Z" : String) ≠ "C" := by decide
      have h6 : ("evenodd" : String) ≠ "nonzero" := by decide
      simp [render_testcase, tcFillSquare, ctmCalls, buildPath, applySeg,
        applyOp, getKey, mapGet, rule_map, nth, Ctx.doMove, Ctx.doLine,
        Ctx.doClose, dashCallsOf, hs, h1, h2, h3, h4, h5, h6,
        Except.bind, ok_bind])

/-- C5: for a test case with `op = "stroke"` that is processed
successfully, a `set_dash` call is issued if and only if the `dash` field
is present and non-empty; when it is issued and `dash_phase` is absent,
the phase passed to the backend is `0`; when `dash` is absent or empty, no
dash call is made (the stroke stays solid). -/
theorem c5_dash_iff (tc : TestCase) (calls : List Call)
    (hop : tc.op = "stroke") (h : applyOp tc = .ok calls) :
    ((∃ pat phase, Call.setDash pat phase ∈ calls) ↔
      ∃ pat, tc.dash = some pat ∧ pat ≠ []) ∧
    (∀ pat, tc.dash = some pat → pat ≠ [] → tc.dash_phase = none →
      Call.setDash pat 0 ∈ calls) := by
  have hne : ¬ tc.op = "fill" := by rw [hop]; decide
  obtain ⟨lw, cap, joinV, ml, hcalls⟩ := applyOp_stroke_elim h hne
  subst hcalls
  constructor
  · constructor
    · rintro ⟨pat, phase, hm⟩
      simp only [List.mem_append, List.mem_cons, List.not_mem_nil] at hm
      have hm' : Call.setDash pat phase ∈ dashCallsOf tc := by
        rcases hm with (hm | hm) | hm
        · simp at hm
        · exact hm
        · simp at hm
      unfold dashCallsOf at hm'
      cases hd : tc.dash with
      | none => simp only [hd] at hm'; simp at hm'
      | some p =>
        simp only [hd] at hm'
        by_cases hp : p = []
        · rw [if_pos hp] at hm'; simp at hm'
        · rw [if_neg hp] at hm'
          simp only [List.mem_singleton] at hm'
          injection hm' with h1 h2
          exact ⟨p, rfl, hp⟩
    · rintro ⟨pat, hd, hp⟩
      refine ⟨pat, tc.dash_phase.getD 0, ?_⟩
      simp [List.mem_append, dashCallsOf, hd, hp]
  · intro pat hd hp hphase
    have : dashCallsOf tc = [Call.setDash pat 0] := by
      simp [dashCallsOf, hd, hp, hphase]
    simp [List.mem_append, this]

/-- Witness for `c5_dash_iff` at a concrete test case. -/
theorem c5_dash_iff_witness :
    ((∃ pat phase, Call.setDash pat phase ∈
        [Call.setLineWidth 2, Call.setLineCap .buttCap,
          Call.setLineJoin .miterJoin, Call.setMiterLimit 4,
          Call.setDash [4, 2] 0, Call.setSourceRGBA 1 1 1 1, Call.stroke]) ↔
      ∃ pat, tcDash.dash = some pat ∧ pat ≠ []) ∧
    (∀ pat, tcDash.dash = some pat → pat ≠ [] → tcDash.dash_phase = none →
      Call.setDash pat 0 ∈
        [Call.setLineWidth 2, Call.setLineCap .buttCap,
          Call.setLineJoin .miterJoin, Call.setMiterLimit 4,
          Call.setDash [4, 2] 0, Call.setSourceRGBA 1 1 1 1, Call.stroke]) :=
  c5_dash_iff tcDash
    [Call.setLineWidth 2, Call.setLineCap .buttCap,
      Call.setLineJoin .miterJoin, Call.setMiterLimit 4,
      Call.setDash [4, 2] 0, Call.setSourceRGBA 1 1 1 1, Call.stroke]
    rfl
    (by
      have h1 : ("stroke" : String) ≠ "fill" := by decide
      simp [applyOp, tcDash, getKey, mapGet, cap_map, join_map, dashCallsOf,
        h1, Except.bind, ok_bind])

/-- C6: for a successfully processed test case with a present, non-empty
CTM, the `set_matrix` call sits at index 1 of the trace (right after the
surface creation), and no path-construction call occurs at or before that
index — the transform is installed before any path segment is replayed. -/
theorem c6_ctm_before_path (tc : TestCase) (od : String) (calls : List Call)
    (l : List ℚ) (h : render_testcase tc od = .ok calls)
    (hctm : tc.ctm = some l) (hne : l ≠ []) :
    ∃ a b c d e f, l = [a, b, c, d, e, f] ∧
      calls.get? 1 = some (Call.setMatrix a b c d e f) ∧
      ∀ j c', j ≤ 1 → calls.get? j = some c' → isPathCall c' = false := by
  obtain ⟨cs, bp, ops, hc, hb, ho, hcalls⟩ := render_ok_elim h
  unfold ctmCalls at hc
  simp only [hctm] at hc
  rw [if_neg hne] at hc
  rcases l with _ | ⟨a, _ | ⟨b, _ | ⟨c, _ | ⟨d, _ | ⟨e, _ | ⟨f, _ | ⟨g, l⟩⟩⟩⟩⟩⟩⟩
  · exact absurd rfl hne
  · exact Except.noConfusion hc
  · exact Except.noConfusion hc
  · exact Except.noConfusion hc
  · exact Except.noConfusion hc
  · exact Except.noConfusion hc
  · injection hc with hcs
    subst hcs
    subst hcalls
    refine ⟨a, b, c, d, e, f, rfl, rfl, ?_⟩
    intro j c' hj hco
    match j, hj with
    | 0, _ =>
      simp only [List.get?] at hco
      injection hco with hco
      subst hco
      rfl
    | 1, _ =>
      simp only [List.get?] at hco
      injection hco with hco
      subst hco
      rfl
  · exact Except.noConfusion hc

/-- Witness for `c6_ctm_before_path` at a concrete test case. -/
theorem c6_ctm_before_path_witness :
    ∃ a b c d e f, ([2, 0, 0, 2, 0, 0] : List ℚ) = [a, b, c, d, e, f] ∧
      ([Call.createSurface .a8 6 6, Call.setMatrix 2 0 0 2 0 0,
        Call.moveTo 1 1, Call.setFillRule .winding,
        Call.setSourceRGBA 1 1 1 1, Call.fill,
        Call.writeToPng "testdata/reference/ctm.png"] : List Call).get? 1 =
          some (Call.setMatrix a b c d e f) ∧
      ∀ j c', j ≤ 1 →
        ([Call.createSurface .a8 6 6, Call.setMatrix 2 0 0 2 0 0,
          Call.moveTo 1 1, Call.setFillRule .winding,
          Call.setSourceRGBA 1 1 1 1, Call.fill,
          Call.writeToPng "testdata/reference/ctm.png"] : List Call).get? j =
            some c' → isPathCall c' = false :=
  c6_ctm_before_path tcCtm outputDir
    [Call.createSurface .a8 6 6, Call.setMatrix 2 0 0 2 0 0,
      Call.moveTo 1 1, Call.setFillRule .winding,
      Call.setSourceRGBA 1 1 1 1, Call.fill,
      Call.writeToPng "testdata/reference/ctm.png"]
    [2, 0, 0, 2, 0, 0]
    (by
      have hs : pngPath outputDir "ctm" = "testdata/reference/ctm.png" := rfl
      simp [render_testcase, tcCtm, ctmCalls, buildPath, applySeg, applyOp,
        getKey, mapGet, rule_map, nth, Ctx.doMove, dashCallsOf, hs,
        Except.bind, ok_bind])
    rfl (by decide)

/-- C8: the batch loop is sequential; a test case whose processing raises
an error ends the run, so the whole batch produces exactly the events of
the prefix up to and including the failing case — every test case after it
contributes no backend call and no progress line — and the run reports an
error. -/
theorem c8_fatal_aborts_batch (l1 l2 : List TestCase) (bad : TestCase) (e : Err)
    (h : render_testcase bad outputDir = .error e) :
    runBatch (l1 ++ bad :: l2) = runBatch (l1 ++ [bad]) ∧
    (runBatch (l1 ++ bad :: l2)).2 ≠ none := by
  induction l1 with
  | nil =>
    simp only [List.nil_append]
    unfold runBatch
    rw [h]
    exact ⟨rfl, by simp⟩
  | cons tc rest ih =>
    obtain ⟨ih1, ih2⟩ := ih
    constructor
    · show runBatch (tc :: (rest ++ bad :: l2)) = runBatch (tc :: (rest ++ [bad]))
      unfold runBatch
      cases hr : render_testcase tc outputDir with
      | error e2 => rfl
      | ok calls => rw [ih1]
    · show (runBatch (tc :: (rest ++ bad :: l2))).2 ≠ none
      unfold runBatch
      cases hr : render_testcase tc outputDir with
      | error e2 => simp
      | ok calls => simpa using ih2

/-- Witness for `c8_fatal_aborts_batch` at a concrete batch. -/
theorem c8_fatal_aborts_batch_witness :
    runBatch ([tcFillSquare] ++ tcNoWidth :: [tcDash]) =
      runBatch ([tcFillSquare] ++ [tcNoWidth]) ∧
    (runBatch ([tcFillSquare] ++ tcNoWidth :: [tcDash])).2 ≠ none :=
  c8_fatal_aborts_batch [tcFillSquare] [tcDash] tcNoWidth (.keyError "line_width")
    (by
      have h1 : ("stroke" : String) ≠ "fill" := by decide
      simp [render_testcase, tcNoWidth, ctmCalls, buildPath, applyOp, getKey,
        h1, Except.bind, ok_bind, error_bind])

/-- C9: a successfully processed test case begins by creating the 8-bit
single-channel (`FORMAT_A8`) surface and ends by writing that surface as
`<name>.png` under the fixed output directory; directory creation with
`exist_ok` is idempotent, and writing to an existing path replaces its
content. -/
theorem c9_fixture_write (tc : TestCase) (calls : List Call)
    (h : render_testcase tc outputDir = .ok calls)
    (dirs : List String) (files : List (String × Nat)) (png : Nat) :
    calls.head? = some (Call.createSurface .a8 tc.width tc.height) ∧
    calls.getLast? =
      some (Call.writeToPng ("testdata/reference/" ++ tc.name ++ ".png")) ∧
    mkdirP (mkdirP dirs outputDir) outputDir = mkdirP dirs outputDir ∧
    (writeFileFS files ("testdata/reference/" ++ tc.name ++ ".png") png).lookup
      ("testdata/reference/" ++ tc.name ++ ".png") = some png := by
  obtain ⟨cs, bp, ops, hc, hb, ho, hcalls⟩ := render_ok_elim h
  have hpath : pngPath outputDir tc.name =
      "testdata/reference/" ++ tc.name ++ ".png" := rfl
  refine ⟨?_, ?_, ?_, ?_⟩
  · rw [hcalls]; rfl
  · rw [hcalls, ← hpath]
    have hsplit :
        Call.createSurface CairoFormat.a8 tc.width tc.height
            :: (cs ++ bp.2 ++ ops ++ [Call.writeToPng (pngPath outputDir tc.name)]) =
          (Call.createSurface CairoFormat.a8 tc.width tc.height
            :: (cs ++ bp.2 ++ ops)) ++ [Call.writeToPng (pngPath outputDir tc.name)] := by
      simp
    rw [hsplit, List.getLast?_concat]
  · by_cases hd : outputDir ∈ dirs
    · simp [mkdirP, hd]
    · simp [mkdirP, hd]
  · simp [writeFileFS, List.lookup]

/-- Witness for `c9_fixture_write` at a concrete test case and concrete
filesystem states. -/
theorem c9_fixture_write_witness :
    ([Call.createSurface .a8 3 3, Call.setFillRule .winding,
        Call.setSourceRGBA 1 1 1 1, Call.fill,
        Call.writeToPng "testdata/reference/mini.png"] : List Call).head? =
      some (Call.createSurface .a8 tcMini.width tcMini.height) ∧
    ([Call.createSurface .a8 3 3, Call.setFillRule .winding,
        Call.setSourceRGBA 1 1 1 1, Call.fill,
        Call.writeToPng "testdata/reference/mini.png"] : List Call).getLast? =
      some (Call.writeToPng ("testdata/reference/" ++ tcMini.name ++ ".png")) ∧
    mkdirP (mkdirP ["testdata"] outputDir) outputDir =
      mkdirP ["testdata"] outputDir ∧
    (writeFileFS [("testdata/reference/mini.png", 7)]
        ("testdata/reference/" ++ tcMini.name ++ ".png") 42).lookup
      ("testdata/reference/" ++ tcMini.name ++ ".png") = some 42 :=
  c9_fixture_write tcMini
    [Call.createSurface .a8 3 3, Call.setFillRule .winding,
      Call.setSourceRGBA 1 1 1 1, Call.fill,
      Call.writeToPng "testdata/reference/mini.png"]
    (by
      have hs : pngPath outputDir "mini" = "testdata/reference/mini.png" := rfl
      simp [render_testcase, tcMini, ctmCalls, buildPath, applyOp, getKey,
        mapGet, rule_map, dashCallsOf, hs, Except.bind, ok_bind])
    ["testdata"] [("testdata/reference/mini.png", 7)] 42

end GenRefs
